import Mathlib

/-!
Verification development for the webview panel lifecycle controller of
`src/src/webview/index.ts` (the `Webview` class: singleton management,
render/reveal, revival, disposal, the ready-handshake and the message
channel), shallowly embedded in Lean.

Modelling conventions:
* The host API (`vscode.*`) is embedded as explicit state: the panel
  surface is a record (`PanelHandle`), listener registrations are symbolic
  tags collected in the instance's `disposables` array, the handshake
  promise of each `render` call is a `PromiseState` in a list indexed by
  call order, `vscode.window.showErrorMessage` appends to a notification
  log, `webview.postMessage` appends to a delivery log, and
  `panel.reveal` appends to a reveal log.
* `Math.random()` is embedded as an entropy oracle `Nat → Nat` carried in
  the state together with a cursor; each `Math.random()*62 |> floor` draw
  is `entropy k % 62` at the next cursor position.
* `panel.dispose()` is modelled as marking the surface disposed; a
  cleanup handle that throws during the drain loop is modelled by the
  predicate `throwsOn`, and the `threw` flag of `DisposeResult` records
  that the exception propagated out of `dispose`.
-/

-- ---------------------------------------------------------------------
-- Generic list utilities used by the embedding and by the extraction
-- observers of the generated HTML.
-- ---------------------------------------------------------------------

/-- `leadMatch m s` is true when the list `m` is an initial segment of `s`
(character-by-character comparison, as a Boolean). -/
def leadMatch : List Char → List Char → Bool
  | [], _ => true
  | _ :: _, [] => false
  | a :: as, b :: bs => a = b && leadMatch as bs

/-- Drop everything up to and including the first occurrence of `marker`;
`none` when the marker does not occur. -/
def dropThrough (marker : List Char) : List Char → Option (List Char)
  | [] => none
  | c :: cs =>
    if leadMatch marker (c :: cs) then some ((c :: cs).drop marker.length)
    else dropThrough marker cs

/-- Take characters up to (excluding) the first occurrence of `stop`;
`none` when `stop` does not occur. -/
def takeBefore (stop : Char) : List Char → Option (List Char)
  | [] => none
  | c :: cs => if c = stop then some [] else (takeBefore stop cs).map (c :: ·)

/-- `noHitBefore m k s = true` when `m` does not match at any of the first
`k` positions of `s`. -/
def noHitBefore (m : List Char) : Nat → List Char → Bool
  | 0, _ => true
  | _ + 1, [] => true
  | k + 1, c :: cs => !(leadMatch m (c :: cs)) && noHitBefore m k cs

-- ---------------------------------------------------------------------
-- Data model
-- ---------------------------------------------------------------------

/-- `vscode.WebviewOptions` as configured by `Webview.getOptions`:
`enableScripts` and the `localResourceRoots` restriction. -/
structure WebviewOptions where
  enableScripts : Bool
  localResourceRoots : List String
  deriving DecidableEq

/-- The host-rendered surface (`vscode.WebviewPanel` together with its
`webview`): identity, the construction-time strings, the configured
options, the html content, visibility and the disposed flag. -/
structure PanelHandle where
  id : Nat
  viewType : String
  title : String
  viewColumn : Nat
  options : WebviewOptions
  html : String
  visible : Bool
  isDisposed : Bool
  deriving DecidableEq

/-- A listener registration pushed into the instance's `disposables`
array.  The constructor registers the first three; every `render` call
registers one `handshake p` listener, where `p` is the index of the
pending promise that call returned. -/
inductive Listener where
  | onDidDispose
  | messageHandler
  | viewStateHandler
  | handshake (p : Nat)
  deriving DecidableEq

/-- The state of the promise returned by one `render` call. -/
inductive PromiseState where
  | pending
  | resolved
  | rejected
  deriving DecidableEq

/-- A message envelope `{ command, data }` (the repository's
`Message<T = string>` shape, used for both directions). -/
structure WMessage where
  command : String
  data : String
  deriving DecidableEq

/-- The instance part of the `Webview` class: the wrapped surface handle,
the owning extension's base location, and the disposables array. -/
structure WebviewInstance where
  panel : PanelHandle
  extensionUri : String
  disposables : List Listener
  deriving DecidableEq

/-- The global state: the static singleton `Webview.currentPanel`, the
promise of each `render` call so far, the observable effect logs, the
count of `createWebviewPanel` calls, and the entropy oracle with its
cursor. -/
structure WState where
  current : Option WebviewInstance
  promises : List PromiseState
  notifications : List String
  posted : List (Nat × WMessage)
  revealed : List (Nat × Nat)
  createdCount : Nat
  entropy : Nat → Nat
  entropyIdx : Nat

/-- An initial state: no instance tracked, nothing logged, a given
entropy oracle. -/
def initState (e : Nat → Nat) : WState :=
  { current := none, promises := [], notifications := [], posted := []
    revealed := [], createdCount := 0, entropy := e, entropyIdx := 0 }

-- ---------------------------------------------------------------------
-- Nonce generation and the HTML template
-- ---------------------------------------------------------------------

/-- The alphabet of `generateNonce` (source lines 371-378). -/
def possibleChars : List Char :=
  "ABCDEFGHIJKLMNOPQRSTUVWXYZabcdefghijklmnopqrstuvwxyz0123456789".toList

/-- `generateNonce` (source lines 371-378): 32 characters, each chosen by
an independent `Math.floor(Math.random() * possible.length)` draw; the
draw at loop index `i` is `entropy (start + i) % 62`. -/
def generateNonce (entropy : Nat → Nat) (start : Nat) : String :=
  String.mk ((List.range 32).map fun i =>
    possibleChars.getD (entropy (start + i) % 62) 'A')

/-- Literal prefix of the template up to (excluding) the CSP's
`'nonce-` marker. -/
def htmlL1pre : String :=
  "<!DOCTYPE html>\n        <html lang=\"en\">\n            <head>\n                <meta charset=\"UTF-8\">\n                <meta name=\"viewport\" content=\"width=device-width, initial-scale=1.0\">\n\n                <!--\n                    Use a content security policy to only allow loading images from https or from our extension directory,\n                    and only allow scripts that have a specific nonce.\n                -->\n                <meta http-equiv=\"Content-Security-Policy\" content=\"default-src 'none'; script-src "

/-- Template chunk 1: everything before the CSP nonce interpolation. -/
def htmlL1 : String := htmlL1pre ++ "'nonce-"

/-- Literal between the CSP nonce and the script tag's `nonce=\x22`
attribute marker. -/
def htmlL2pre : String :=
  "';\">\n\n                <script type=\"module\" "

/-- Template chunk 2: from just after the CSP nonce to just before the
script tag nonce interpolation. -/
def htmlL2 : String := htmlL2pre ++ "nonce=\""

/-- Template chunk 3: between the script tag nonce and the `src` value. -/
def htmlL3 : String := "\" src=\""

/-- Template chunk 4: everything after the script `src` interpolation. -/
def htmlL4 : String :=
  "\"></script>\n\n                <title>Webview</title>\n            </head>\n\n            <body>\n                <vscode-text-field id=\"search\" type=\"text\" placeholder=\"Search...\"></vscode-text-field>\n                <table id=\"table\"></table>\n            </body>\n        </html>\n        "

/-- The template literal of `getHtmlForWebview` (source lines 169-192)
with its two `nonce` interpolations and one `scriptUri` interpolation. -/
def htmlTemplate (scriptUri nonce : String) : String :=
  htmlL1 ++ nonce ++ htmlL2 ++ nonce ++ htmlL3 ++ scriptUri ++ htmlL4

/-- `vscode.Uri.joinPath`: append path segments. -/
def joinPath (base : String) (segs : List String) : String :=
  segs.foldl (fun a s => a ++ "/" ++ s) base

/-- `webview.asWebviewUri`: the host's resource-uri translation,
modelled as prefixing the resource scheme. -/
def asWebviewUri (p : String) : String :=
  "https://webview.vscode-resource/" ++ p

namespace Webview

/-- `Webview.getWebviewUri` (source lines 155-158). -/
def getWebviewUri (extensionUri : String) (segs : List String) : String :=
  asWebviewUri (joinPath extensionUri segs)

/-- `Webview.getHtmlForWebview` (source lines 161-192): resolve the
script uri, draw a fresh nonce, fill the template. -/
def getHtmlForWebview (extensionUri : String) (entropy : Nat → Nat)
    (start : Nat) : String :=
  htmlTemplate (getWebviewUri extensionUri ["out", "webview.js"])
    (generateNonce entropy start)

/-- `Webview.getOptions` (source lines 83-90): enable scripts, restrict
resource roots to the extension's `out` directory. -/
def getOptions (extensionUri : String) : WebviewOptions :=
  { enableScripts := true
    localResourceRoots := [joinPath extensionUri ["out"]] }

/-- `Webview.update` (source lines 150-152): regenerate the html with a
fresh nonce and assign it to the webview; the entropy cursor advances by
the 32 draws of `generateNonce`. -/
def update (self : WebviewInstance) (st : WState) :
    WebviewInstance × WState :=
  ({ self with panel :=
      { self.panel with
        html := getHtmlForWebview self.extensionUri st.entropy st.entropyIdx } },
   { st with entropyIdx := st.entropyIdx + 32 })

/-- The private constructor (source lines 96-114): set the initial html
via `update`, then register the disposal, message and view-state
listeners, collecting the three registrations in `disposables`. -/
def construct (panel : PanelHandle) (extensionUri : String) (st : WState) :
    WebviewInstance × WState :=
  let self0 : WebviewInstance :=
    { panel := panel, extensionUri := extensionUri, disposables := [] }
  let (self1, st1) := update self0 st
  ({ self1 with disposables :=
      [Listener.onDidDispose, Listener.messageHandler, Listener.viewStateHandler] },
   st1)

/-- `Webview.create` (source lines 32-43): construct a fresh surface via
`createWebviewPanel` with the fixed view type, title and the options of
`getOptions`, and wrap it in a new instance.  Note: it does not assign
`currentPanel`. -/
def create (extensionUri : String) (viewColumn : Nat) (st : WState) :
    WebviewInstance × WState :=
  let panel : PanelHandle :=
    { id := st.createdCount, viewType := "tablePreview"
      title := "Table Preview", viewColumn := viewColumn
      options := getOptions extensionUri, html := ""
      visible := true, isDisposed := false }
  construct panel extensionUri { st with createdCount := st.createdCount + 1 }

/-- `Webview.render` (source lines 49-64): reveal the existing panel, or
create one and store it as the singleton; then return a new pending
promise whose handshake listener is registered on the webview with its
registration pushed into the instance's `disposables`. -/
def render (extensionUri : String) (viewColumn : Nat) (st : WState) : WState :=
  let st1 :=
    match st.current with
    | some inst =>
        { st with revealed := st.revealed ++ [(inst.panel.id, viewColumn)] }
    | none =>
        let (inst, st') := create extensionUri viewColumn st
        { st' with current := some inst }
  match st1.current with
  | some inst =>
      { st1 with
        current := some
          { inst with disposables :=
              inst.disposables ++ [Listener.handshake st1.promises.length] }
        promises := st1.promises ++ [PromiseState.pending] }
  | none => { st1 with promises := st1.promises ++ [PromiseState.pending] }

/-- `Webview.revive` (source lines 67-69): wrap the host-restored handle
in a new instance (running only the constructor, not `create`) and store
it as the singleton. -/
def revive (panel : PanelHandle) (extensionUri : String) (st : WState) : WState :=
  let (inst, st') := construct panel extensionUri st
  { st' with current := some inst }

/-- `Webview.postMessage` (source lines 75-77): optional chaining on
`currentPanel` hands the envelope to the current surface, or does
nothing at all when no instance is tracked. -/
def postMessage (message : WMessage) (st : WState) : WState :=
  match st.current with
  | none => st
  | some inst => { st with posted := st.posted ++ [(inst.panel.id, message)] }

/-- `Webview.handleMessage` (source lines 138-144): a switch on the
command; `error` surfaces the payload as an error notification; every
other command falls through the switch with no effect. -/
def handleMessage (message : WMessage) (st : WState) : WState :=
  if message.command = "error" then
    { st with notifications := st.notifications ++ [message.data] }
  else st

end Webview

-- ---------------------------------------------------------------------
-- Disposal
-- ---------------------------------------------------------------------

/-- Outcome of the `while (this.disposables.length) { pop; dispose }`
drain loop: the handles invoked (in invocation order), the handles still
in the array, and whether an invoked cleanup threw (aborting the loop
and propagating). -/
structure DrainOut (α : Type) where
  invoked : List α
  remaining : List α
  threw : Bool
  deriving DecidableEq

/-- The drain loop on the reversed array (so `pop` is the head):
each handle is removed before its cleanup runs; a throwing cleanup ends
the loop with the rest of the (reversed) array untouched. -/
def drainRevList (throwsOn : α → Bool) : List α → DrainOut α
  | [] => ⟨[], [], false⟩
  | d :: rest =>
    if throwsOn d then ⟨[d], rest, true⟩
    else
      let r := drainRevList throwsOn rest
      ⟨d :: r.invoked, r.remaining, r.threw⟩

/-- The drain loop of `Webview.dispose` on the array in its stored
order. -/
def drainDisposables (throwsOn : α → Bool) (ds : List α) : DrainOut α :=
  let r := drainRevList throwsOn ds.reverse
  ⟨r.invoked, r.remaining.reverse, r.threw⟩

/-- Result of `Webview.dispose`: the mutated instance, the global state,
the cleanups that ran, and whether the call threw. -/
structure DisposeResult where
  inst : WebviewInstance
  state : WState
  invoked : List Listener
  threw : Bool

/-- `Webview.dispose` (source lines 123-132): clear the singleton
reference, dispose the surface, then drain the disposables array by
popping each handle before invoking it. -/
def Webview.dispose (throwsOn : Listener → Bool) (self : WebviewInstance)
    (st : WState) : DisposeResult :=
  let st1 : WState := { st with current := none }
  let self1 : WebviewInstance :=
    { self with panel := { self.panel with isDisposed := true } }
  let d := drainDisposables throwsOn self1.disposables
  { inst := { self1 with disposables := d.remaining }
    state := st1, invoked := d.invoked, threw := d.threw }

/-- The disposal event as seen through the singleton (`currentPanel`):
a no-op when no instance is tracked; cleanups assumed non-throwing. -/
def stepDispose (st : WState) : WState :=
  match st.current with
  | none => st
  | some inst => (Webview.dispose (fun _ => false) inst st).state

-- ---------------------------------------------------------------------
-- Inbound events
-- ---------------------------------------------------------------------

/-- Settle the promise at index `p`: a pending promise resolves when the
first observed command is `ready` and rejects otherwise; a settled
promise never changes again. -/
def settleAt : Nat → Bool → List PromiseState → List PromiseState
  | _, _, [] => []
  | 0, r, s :: rest =>
    (match s with
     | PromiseState.pending =>
         if r then PromiseState.resolved else PromiseState.rejected
     | x => x) :: rest
  | n + 1, r, s :: rest => s :: settleAt n r rest

/-- Effect of one registered listener observing an inbound message: the
constructor's handler runs `handleMessage`; a handshake listener runs
`if command === 'ready' then resolve else reject` on its promise; the
other registrations are not message listeners. -/
def fireOne (msg : WMessage) (st : WState) : Listener → WState
  | Listener.messageHandler => Webview.handleMessage msg st
  | Listener.handshake p =>
      { st with promises := settleAt p (msg.command == "ready") st.promises }
  | _ => st

/-- An inbound message from the webview: every message listener
registered on the current surface observes it, in registration order;
nothing happens when no instance is tracked. -/
def deliverMessage (msg : WMessage) (st : WState) : WState :=
  match st.current with
  | none => st
  | some inst => inst.disposables.foldl (fireOne msg) st

/-- A view-state-change event (source lines 111-113): the host updates
the surface's visibility, then the registered handler runs
`if (this.panel.visible) { this.update(); }`. -/
def stepViewChange (v : Bool) (st : WState) : WState :=
  match st.current with
  | none => st
  | some inst =>
    let inst1 :=
      { inst with panel := { inst.panel with visible := v } }
    if Listener.viewStateHandler ∈ inst1.disposables then
      if inst1.panel.visible then
        let (inst2, st2) := Webview.update inst1 st
        { st2 with current := some inst2 }
      else { st with current := some inst1 }
    else { st with current := some inst1 }

/-- `n` successive `render` calls. -/
def renderTimes (extensionUri : String) (viewColumn : Nat) :
    Nat → WState → WState
  | 0, st => st
  | n + 1, st => renderTimes extensionUri viewColumn n
      (Webview.render extensionUri viewColumn st)

-- ---------------------------------------------------------------------
-- Observers used in theorem statements
-- ---------------------------------------------------------------------

/-- Title of the current surface, when an instance is tracked. -/
def titleOf (st : WState) : Option String :=
  st.current.map fun i => i.panel.title

/-- Html content of the current surface, when an instance is tracked. -/
def htmlOf (st : WState) : Option String :=
  st.current.map fun i => i.panel.html

/-- The nonce declared in the Content-Security-Policy's `script-src`
directive of a generated document: the text between the first
`'nonce-` and the next apostrophe. -/
def cspNonceOf (html : String) : Option String :=
  ((dropThrough "'nonce-".toList html.toList).bind (takeBefore '\'')).map
    fun l => String.mk l

/-- The nonce attribute of the script tag of a generated document: the
text between the first `nonce=\x22` and the next double quote. -/
def scriptTagNonceOf (html : String) : Option String :=
  ((dropThrough "nonce=\"".toList html.toList).bind (takeBefore '"')).map
    fun l => String.mk l

/-- Nonce of the current document per the CSP declaration. -/
def nonceOf (st : WState) : Option String :=
  (htmlOf st).bind cspNonceOf

-- ---------------------------------------------------------------------
-- Shape lemmas for the operations
-- ---------------------------------------------------------------------

theorem render_eq_of_some (uri : String) (col : Nat) (st : WState)
    (inst : WebviewInstance) (h : st.current = some inst) :
    Webview.render uri col st =
      { st with
        revealed := st.revealed ++ [(inst.panel.id, col)]
        current := some
          { inst with disposables :=
              inst.disposables ++ [Listener.handshake st.promises.length] }
        promises := st.promises ++ [PromiseState.pending] } := by
  simp only [Webview.render, h]

theorem render_eq_of_none (uri : String) (col : Nat) (st : WState)
    (h : st.current = none) :
    Webview.render uri col st =
      { st with
        createdCount := st.createdCount + 1
        entropyIdx := st.entropyIdx + 32
        current := some
          { panel :=
              { id := st.createdCount, viewType := "tablePreview"
                title := "Table Preview", viewColumn := col
                options := Webview.getOptions uri
                html := Webview.getHtmlForWebview uri st.entropy st.entropyIdx
                visible := true, isDisposed := false }
            extensionUri := uri
            disposables :=
              [Listener.onDidDispose, Listener.messageHandler,
               Listener.viewStateHandler, Listener.handshake st.promises.length] }
        promises := st.promises ++ [PromiseState.pending] } := by
  simp only [Webview.render, Webview.create, Webview.construct, Webview.update, h,
    List.cons_append, List.nil_append]

theorem settleAt_concat_length (l : List PromiseState) (r : Bool) :
    settleAt l.length r (l ++ [PromiseState.pending]) =
      l ++ [if r then PromiseState.resolved else PromiseState.rejected] := by
  induction l with
  | nil => rfl
  | cons x xs ih => simpa [settleAt] using ih

theorem render_preserves_instance (uri : String) (col : Nat) (st : WState)
    (h : st.current.isSome = true) :
    (Webview.render uri col st).current.isSome = true
    ∧ (Webview.render uri col st).createdCount = st.createdCount := by
  cases hc : st.current with
  | none => rw [hc] at h; cases h
  | some inst => rw [render_eq_of_some uri col st inst hc]; exact ⟨rfl, rfl⟩

theorem foldl_render_createdCount (l : List (String × Nat)) :
    ∀ st : WState, st.current.isSome = true →
      (l.foldl (fun s pr => Webview.render pr.1 pr.2 s) st).createdCount
          = st.createdCount
      ∧ (l.foldl (fun s pr => Webview.render pr.1 pr.2 s) st).current.isSome
          = true := by
  induction l with
  | nil => intro st h; exact ⟨rfl, h⟩
  | cons p rest ih =>
    intro st h
    have h1 := render_preserves_instance p.1 p.2 st h
    have h2 := ih (Webview.render p.1 p.2 st) h1.1
    exact ⟨h2.1.trans h1.2, h2.2⟩

-- ---------------------------------------------------------------------
-- Claim theorems
-- ---------------------------------------------------------------------

/-- C1: a `render` call with a tracked instance reveals that same panel
and constructs nothing; a `render` call with no tracked instance
constructs exactly one new surface and stores it as the singleton; and
over any further sequence of `render` calls from a state with a live
instance, no additional surface is ever constructed, so at most one live
instance exists at any time. -/
theorem C1_singleton (st : WState) (uri : String) (col : Nat) :
    (∀ inst, st.current = some inst →
        (Webview.render uri col st).createdCount = st.createdCount
      ∧ (Webview.render uri col st).revealed
          = st.revealed ++ [(inst.panel.id, col)]
      ∧ ∃ inst', (Webview.render uri col st).current = some inst'
          ∧ inst'.panel = inst.panel)
  ∧ (st.current = none →
        (Webview.render uri col st).createdCount = st.createdCount + 1
      ∧ (Webview.render uri col st).revealed = st.revealed
      ∧ ∃ inst', (Webview.render uri col st).current = some inst'
          ∧ inst'.panel.id = st.createdCount)
  ∧ (∀ l : List (String × Nat), st.current.isSome = true →
      (l.foldl (fun s pr => Webview.render pr.1 pr.2 s) st).createdCount
        = st.createdCount) := by
  refine ⟨?_, ?_, ?_⟩
  · intro inst h
    rw [render_eq_of_some uri col st inst h]
    exact ⟨rfl, rfl, _, rfl, rfl⟩
  · intro h
    rw [render_eq_of_none uri col st h]
    exact ⟨rfl, rfl, _, rfl, rfl⟩
  · intro l h
    exact (foldl_render_createdCount l st h).1

/-- C1 witness: from the empty state one `render` constructs exactly one
surface, and two further `render` calls construct none. -/
theorem C1_witness :
    (Webview.render "ext" 2 (initState fun _ => 0)).createdCount
      = (initState fun _ => 0).createdCount + 1
  ∧ ([("a", 1), ("b", 2)].foldl (fun s pr => Webview.render pr.1 pr.2 s)
        (Webview.render "ext" 2 (initState fun _ => 0))).createdCount
      = (Webview.render "ext" 2 (initState fun _ => 0)).createdCount := by
  refine ⟨((C1_singleton (initState fun _ => 0) "ext" 2).2.1 rfl).1, ?_⟩
  exact (C1_singleton (Webview.render "ext" 2 (initState fun _ => 0)) "x" 0).2.2
    [("a", 1), ("b", 2)] (by rfl)

/-- C4: `postMessage` with no tracked instance returns the state
entirely unchanged: no delivery, no error, no state change. -/
theorem C4_postMessage_absent (st : WState) (msg : WMessage)
    (h : st.current = none) :
    Webview.postMessage msg st = st := by
  simp [Webview.postMessage, h]

/-- C4 witness: posting an envelope on the empty state is an identity. -/
theorem C4_witness :
    Webview.postMessage ⟨"x", ""⟩ (initState fun _ => 0)
      = initState (fun _ => 0) :=
  C4_postMessage_absent _ _ rfl

/-- C6: `handleMessage` on a command that is neither `ready` nor `error`
is a no-op: the state (notifications included) is returned unchanged and
nothing throws (the embedding is a total function). -/
theorem C6_unrecognized_noop (st : WState) (msg : WMessage)
    (h1 : msg.command ≠ "ready") (h2 : msg.command ≠ "error") :
    Webview.handleMessage msg st = st := by
  simp [Webview.handleMessage, h2]

/-- C6 witness: an unrecognized command leaves the state unchanged. -/
theorem C6_witness :
    Webview.handleMessage ⟨"bogus", "d"⟩ (initState fun _ => 0)
      = initState (fun _ => 0) :=
  C6_unrecognized_noop _ _ (by decide) (by decide)

/-- C8: `revive` installs an instance wrapping the given handle as the
singleton, leaving the handle's options (and its identity, title, view
type and visibility) unchanged and constructing no new surface, whereas
a fresh `create` would configure the options via `getOptions`
(`enableScripts` and the resource-root restriction). -/
theorem C8_revive_bypasses_options (panel : PanelHandle) (uri : String)
    (col : Nat) (st : WState) :
    (∃ inst, (Webview.revive panel uri st).current = some inst
      ∧ inst.panel.options = panel.options
      ∧ inst.panel.id = panel.id
      ∧ inst.panel.title = panel.title
      ∧ inst.panel.viewType = panel.viewType
      ∧ inst.panel.visible = panel.visible
      ∧ inst.extensionUri = uri)
    ∧ (Webview.revive panel uri st).createdCount = st.createdCount
    ∧ ((Webview.create uri col st).1).panel.options = Webview.getOptions uri :=
  ⟨⟨_, rfl, rfl, rfl, rfl, rfl, rfl, rfl⟩, rfl, rfl⟩

theorem handleMessage_promises (msg : WMessage) (s : WState) :
    (Webview.handleMessage msg s).promises = s.promises := by
  unfold Webview.handleMessage; split <;> rfl

/-- C2: after a fresh `render` the returned promise is pending; the first
inbound message resolves it when its command is `ready` and rejects it
for any other command; and an inbound `error` envelope additionally
surfaces its payload as an error notification via the separate message
handler. -/
theorem C2_handshake (st : WState) (uri : String) (col : Nat)
    (c d : String) (h : st.current = none) :
    (Webview.render uri col st).promises.get? st.promises.length
        = some PromiseState.pending
  ∧ (deliverMessage ⟨"ready", d⟩ (Webview.render uri col st)).promises.get?
        st.promises.length = some PromiseState.resolved
  ∧ (c ≠ "ready" →
      (deliverMessage ⟨c, d⟩ (Webview.render uri col st)).promises.get?
        st.promises.length = some PromiseState.rejected)
  ∧ (deliverMessage ⟨"error", d⟩ (Webview.render uri col st)).notifications
        = st.notifications ++ [d] := by
  rw [render_eq_of_none uri col st h]
  refine ⟨List.get?_concat_length _ _, ?_, ?_, ?_⟩
  · simp only [deliverMessage, List.foldl, fireOne, handleMessage_promises]
    rw [show (("ready" : String) == "ready") = true from rfl,
      settleAt_concat_length]
    exact List.get?_concat_length _ _
  · intro hc
    simp only [deliverMessage, List.foldl, fireOne, handleMessage_promises]
    rw [beq_false_of_ne hc, settleAt_concat_length]
    exact List.get?_concat_length _ _
  · simp only [deliverMessage, List.foldl, fireOne, Webview.handleMessage]
    rfl

/-- C2 witness: the spec's example sequence on the concrete empty state:
`render` then `{command: ready}` resolves; `render` then
`{command: error, data: x}` rejects and surfaces the notification `x`. -/
theorem C2_witness :
    (deliverMessage ⟨"ready", ""⟩
        (Webview.render "ext" 2 (initState fun _ => 0))).promises.get? 0
      = some PromiseState.resolved
  ∧ (deliverMessage ⟨"error", "x"⟩
        (Webview.render "ext" 2 (initState fun _ => 0))).promises.get? 0
      = some PromiseState.rejected
  ∧ (deliverMessage ⟨"error", "x"⟩
        (Webview.render "ext" 2 (initState fun _ => 0))).notifications
      = ["x"] := by
  have h := C2_handshake (initState fun _ => 0) "ext" 2 "error" "x" rfl
  exact ⟨h.2.1, h.2.2.1 (by decide), by simpa using h.2.2.2⟩

-- ---------------------------------------------------------------------
-- Drain-loop lemmas and the disposal claims
-- ---------------------------------------------------------------------

theorem drainRevList_append {α : Type} (f : α → Bool) (l : List α) :
    (drainRevList f l).invoked ++ (drainRevList f l).remaining = l := by
  induction l with
  | nil => rfl
  | cons d rest ih =>
    by_cases hd : f d
    · simp [drainRevList, hd]
    · simp only [drainRevList, hd, Bool.false_eq_true, if_false, List.cons_append]
      rw [ih]

theorem drainRevList_no_throw {α : Type} (f : α → Bool) (l : List α)
    (h : (drainRevList f l).threw = false) :
    (drainRevList f l).invoked = l ∧ (drainRevList f l).remaining = [] := by
  induction l with
  | nil => exact ⟨rfl, rfl⟩
  | cons d rest ih =>
    by_cases hd : f d
    · simp [drainRevList, hd] at h
    · simp only [drainRevList, hd, Bool.false_eq_true, if_false] at h ⊢
      exact ⟨by rw [(ih h).1], (ih h).2⟩

/-- Sample listener registration set: the three constructor
registrations followed by one handshake registration. -/
def sampleDisposables : List Listener :=
  [Listener.onDidDispose, Listener.messageHandler,
   Listener.viewStateHandler, Listener.handshake 0]

/-- Sample instance: the instance produced by a first `render` on the
empty state with the all-zero entropy oracle. -/
def sampleInstance : WebviewInstance :=
  { panel :=
      { id := 0, viewType := "tablePreview", title := "Table Preview"
        viewColumn := 2, options := Webview.getOptions "ext"
        html := Webview.getHtmlForWebview "ext" (fun _ => 0) 0
        visible := true, isDisposed := false }
    extensionUri := "ext"
    disposables := sampleDisposables }

/-- C3 counterexample: when the first popped cleanup throws, `dispose`
propagates the exception and the three remaining registered cleanups are
never invoked — refuting both "every registered cleanup handle is
invoked exactly once even if one cleanup throws" and "never throws". -/
theorem C3_counterexample :
    (Webview.dispose (fun l => decide (l = Listener.handshake 0))
        sampleInstance (initState fun _ => 0)).threw = true
  ∧ (Webview.dispose (fun l => decide (l = Listener.handshake 0))
        sampleInstance (initState fun _ => 0)).invoked
      = [Listener.handshake 0]
  ∧ (Webview.dispose (fun l => decide (l = Listener.handshake 0))
        sampleInstance (initState fun _ => 0)).inst.disposables
      = [Listener.onDidDispose, Listener.messageHandler,
         Listener.viewStateHandler] :=
  ⟨rfl, rfl, rfl⟩

/-- C3 (amended): `dispose` returns the global state with only the
singleton reference cleared (so re-entrant observers see the absent
state and nothing else — promises included — is touched), marks the
surface disposed, and drains the registration set popping each handle
before invoking it, so no handle is invoked more than once; when no
cleanup throws, every registered handle is invoked exactly once, the set
is left empty, and a second `dispose` invokes nothing, leaves the state
absent and does not throw; disposal through the singleton when no
instance is tracked is a no-op. -/
theorem C3_dispose (f : Listener → Bool) (self : WebviewInstance)
    (st : WState) :
    (Webview.dispose f self st).state = { st with current := none }
  ∧ (Webview.dispose f self st).inst.panel.isDisposed = true
  ∧ (Webview.dispose f self st).invoked
        ++ (Webview.dispose f self st).inst.disposables.reverse
      = self.disposables.reverse
  ∧ (self.disposables.Nodup → (Webview.dispose f self st).invoked.Nodup)
  ∧ ((Webview.dispose f self st).threw = false →
        (Webview.dispose f self st).invoked = self.disposables.reverse
      ∧ (Webview.dispose f self st).inst.disposables = [])
  ∧ ((Webview.dispose f self st).threw = false →
        (Webview.dispose f (Webview.dispose f self st).inst
            (Webview.dispose f self st).state).threw = false
      ∧ (Webview.dispose f (Webview.dispose f self st).inst
            (Webview.dispose f self st).state).invoked = []
      ∧ (Webview.dispose f (Webview.dispose f self st).inst
            (Webview.dispose f self st).state).state.current = none)
  ∧ (st.current = none → stepDispose st = st) := by
  have hshape :
      (Webview.dispose f self st).invoked
          ++ (Webview.dispose f self st).inst.disposables.reverse
        = self.disposables.reverse := by
    simp only [Webview.dispose, drainDisposables, List.reverse_reverse]
    exact drainRevList_append f self.disposables.reverse
  refine ⟨rfl, rfl, hshape, ?_, ?_, ?_, ?_⟩
  · intro hnd
    have : ((Webview.dispose f self st).invoked
        ++ (Webview.dispose f self st).inst.disposables.reverse).Nodup := by
      rw [hshape]; exact List.nodup_reverse.mpr hnd
    exact this.of_append_left
  · intro ht
    have h := drainRevList_no_throw f self.disposables.reverse ht
    refine ⟨h.1, ?_⟩
    show (drainDisposables f self.disposables).remaining = []
    simp only [drainDisposables, h.2, List.reverse_nil]
  · intro ht
    have h := drainRevList_no_throw f self.disposables.reverse ht
    refine ⟨?_, ?_, rfl⟩ <;>
      simp [Webview.dispose, drainDisposables, drainRevList, h.2]
  · intro h
    simp [stepDispose, h]

/-- C3 witness: on the concrete sample instance with no throwing
cleanup, every registered handle is invoked exactly once (in pop order),
the set ends empty, and a second `dispose` does not throw and leaves the
state absent. -/
theorem C3_witness :
    (Webview.dispose (fun _ => false) sampleInstance
        (initState fun _ => 0)).state.current = none
  ∧ (Webview.dispose (fun _ => false) sampleInstance
        (initState fun _ => 0)).invoked = sampleDisposables.reverse
  ∧ (Webview.dispose (fun _ => false) sampleInstance
        (initState fun _ => 0)).invoked.Nodup
  ∧ (Webview.dispose (fun _ => false) sampleInstance
        (initState fun _ => 0)).inst.disposables = []
  ∧ (Webview.dispose (fun _ => false)
        (Webview.dispose (fun _ => false) sampleInstance
          (initState fun _ => 0)).inst
        (Webview.dispose (fun _ => false) sampleInstance
          (initState fun _ => 0)).state).threw = false := by
  have h := C3_dispose (fun _ => false) sampleInstance (initState fun _ => 0)
  have ht : (Webview.dispose (fun _ => false) sampleInstance
      (initState fun _ => 0)).threw = false := rfl
  exact ⟨by rw [h.1], (h.2.2.2.2.1 ht).1, h.2.2.2.1 (by decide),
    (h.2.2.2.2.1 ht).2, (h.2.2.2.2.2.1 ht).1⟩

theorem foldl_deliver_none (msgs : List WMessage) :
    ∀ s : WState, s.current = none →
      msgs.foldl (fun s m => deliverMessage m s) s = s := by
  induction msgs with
  | nil => intro s _; rfl
  | cons m rest ih =>
    intro s h
    rw [List.foldl_cons, show deliverMessage m s = s from by
      simp [deliverMessage, h]]
    exact ih s h

/-- C9: a fresh `render` leaves its promise pending; disposing the
surface before any inbound message settles nothing (the disposal
sequence only clears the singleton reference), and after disposal no
sequence of inbound messages can ever settle it, so the promise neither
resolves nor rejects. -/
theorem C9_dispose_leaves_pending (st : WState) (uri : String) (col : Nat)
    (f : Listener → Bool) (h : st.current = none) :
    (Webview.render uri col st).promises.get? st.promises.length
        = some PromiseState.pending
  ∧ ∀ inst, (Webview.render uri col st).current = some inst →
      ((Webview.dispose f inst (Webview.render uri col st)).state.promises.get?
          st.promises.length = some PromiseState.pending
      ∧ ∀ msgs : List WMessage,
          (msgs.foldl (fun s m => deliverMessage m s)
            (Webview.dispose f inst
              (Webview.render uri col st)).state).promises.get?
            st.promises.length = some PromiseState.pending) := by
  rw [render_eq_of_none uri col st h]
  refine ⟨List.get?_concat_length _ _, ?_⟩
  intro inst _
  refine ⟨List.get?_concat_length _ _, ?_⟩
  intro msgs
  rw [foldl_deliver_none msgs _ rfl]
  exact List.get?_concat_length _ _

/-- C9 witness: on the concrete fresh state, after disposal the promise
is still pending and stays pending under further inbound messages. -/
theorem C9_witness :
    (Webview.dispose (fun _ => false) sampleInstance
        (Webview.render "ext" 2 (initState fun _ => 0))).state.promises.get? 0
      = some PromiseState.pending
  ∧ ([⟨"ready", ""⟩, ⟨"error", "x"⟩].foldl (fun s m => deliverMessage m s)
        (Webview.dispose (fun _ => false) sampleInstance
          (Webview.render "ext" 2 (initState fun _ => 0))).state).promises.get? 0
      = some PromiseState.pending := by
  have h := (C9_dispose_leaves_pending (initState fun _ => 0) "ext" 2
      (fun _ => false) rfl).2 sampleInstance rfl
  exact ⟨h.1, h.2 [⟨"ready", ""⟩, ⟨"error", "x"⟩]⟩

-- ---------------------------------------------------------------------
-- Promise-settling lemmas and listener accumulation
-- ---------------------------------------------------------------------

theorem settleAt_get?_eq (r : Bool) :
    ∀ (p : Nat) (ps : List PromiseState),
      ps.get? p = some PromiseState.pending →
      (settleAt p r ps).get? p
        = some (if r then PromiseState.resolved else PromiseState.rejected) := by
  intro p
  induction p with
  | zero =>
    intro ps h
    cases ps with
    | nil => cases h
    | cons s rest =>
      have : s = PromiseState.pending := by simpa using h
      subst this; rfl
  | succ n ih =>
    intro ps h
    cases ps with
    | nil => cases h
    | cons s rest => exact ih rest (by simpa using h)

theorem settleAt_get?_stay (r : Bool) (v : PromiseState)
    (hv : v ≠ PromiseState.pending) :
    ∀ (p : Nat) (ps : List PromiseState),
      ps.get? p = some v → (settleAt p r ps).get? p = some v := by
  intro p
  induction p with
  | zero =>
    intro ps h
    cases ps with
    | nil => cases h
    | cons s rest =>
      have hs : s = v := by simpa using h
      subst hs
      cases s <;> simp_all [settleAt]
  | succ n ih =>
    intro ps h
    cases ps with
    | nil => cases h
    | cons s rest => exact ih rest (by simpa using h)

theorem settleAt_get?_ne (r : Bool) :
    ∀ (j p : Nat), j ≠ p → ∀ ps : List PromiseState,
      (settleAt j r ps).get? p = ps.get? p := by
  intro j
  induction j with
  | zero =>
    intro p h ps
    cases ps with
    | nil => rfl
    | cons s rest =>
      cases p with
      | zero => exact absurd rfl h
      | succ m => rfl
  | succ n ih =>
    intro p h ps
    cases ps with
    | nil => rfl
    | cons s rest =>
      cases p with
      | zero => rfl
      | succ m => exact ih m (fun e => h (by rw [e])) rest

theorem fireOne_current (msg : WMessage) (s : WState) (l : Listener) :
    (fireOne msg s l).current = s.current := by
  cases l with
  | messageHandler =>
    show (Webview.handleMessage msg s).current = s.current
    unfold Webview.handleMessage
    split <;> rfl
  | handshake p => rfl
  | onDidDispose => rfl
  | viewStateHandler => rfl

theorem foldl_fire_current (msg : WMessage) :
    ∀ (ls : List Listener) (s : WState),
      (ls.foldl (fireOne msg) s).current = s.current := by
  intro ls
  induction ls with
  | nil => intro s; rfl
  | cons l rest ih =>
    intro s
    rw [List.foldl_cons, ih (fireOne msg s l), fireOne_current]

theorem foldl_fire_stay (msg : WMessage) (p : Nat) (v : PromiseState)
    (hv : v ≠ PromiseState.pending) :
    ∀ (ls : List Listener) (s : WState),
      s.promises.get? p = some v →
      (ls.foldl (fireOne msg) s).promises.get? p = some v := by
  intro ls
  induction ls with
  | nil => intro s h; exact h
  | cons l rest ih =>
    intro s h
    rw [List.foldl_cons]
    refine ih (fireOne msg s l) ?_
    cases l with
    | messageHandler => rw [show (fireOne msg s Listener.messageHandler).promises
        = s.promises from handleMessage_promises msg s]; exact h
    | onDidDispose => exact h
    | viewStateHandler => exact h
    | handshake j =>
      by_cases hj : j = p
      · subst hj
        exact settleAt_get?_stay _ v hv j s.promises h
      · show (settleAt j (msg.command == "ready") s.promises).get? p = some v
        rw [settleAt_get?_ne _ j p hj]; exact h

theorem foldl_fire_settles (msg : WMessage) (p : Nat) :
    ∀ (ls : List Listener) (s : WState),
      Listener.handshake p ∈ ls →
      s.promises.get? p = some PromiseState.pending →
      (ls.foldl (fireOne msg) s).promises.get? p
        = some (if msg.command == "ready" then PromiseState.resolved
            else PromiseState.rejected) := by
  intro ls
  induction ls with
  | nil => intro s hm; cases hm
  | cons l rest ih =>
    intro s hm hp
    rw [List.foldl_cons]
    rcases List.mem_cons.mp hm with he | hrest
    · subst he
      have hset : (fireOne msg s (Listener.handshake p)).promises.get? p
          = some (if msg.command == "ready" then PromiseState.resolved
              else PromiseState.rejected) :=
        settleAt_get?_eq _ p s.promises hp
      by_cases hr : Listener.handshake p ∈ rest
      · by_cases hpend : (if msg.command == "ready" then PromiseState.resolved
            else PromiseState.rejected) = PromiseState.pending
        · cases hb : (msg.command == "ready") <;> simp [hb] at hpend
        · exact foldl_fire_stay msg p _ hpend rest _ hset
      · exact foldl_fire_stay msg p _
          (by cases hb : (msg.command == "ready") <;> simp [hb]) rest _ hset
    · by_cases he : l = Listener.handshake p
      · subst he
        exact foldl_fire_stay msg p _
          (by cases hb : (msg.command == "ready") <;> simp [hb]) rest _
          (settleAt_get?_eq _ p s.promises hp)
      · refine ih (fireOne msg s l) hrest ?_
        cases l with
        | messageHandler => rw [show (fireOne msg s Listener.messageHandler).promises
            = s.promises from handleMessage_promises msg s]; exact hp
        | onDidDispose => exact hp
        | viewStateHandler => exact hp
        | handshake j =>
          have hj : j ≠ p := fun e => he (by rw [e])
          show (settleAt j (msg.command == "ready") s.promises).get? p
              = some PromiseState.pending
          rw [settleAt_get?_ne _ j p hj]; exact hp

theorem renderTimes_eq_of_some (uri : String) (col : Nat) :
    ∀ (n : Nat) (st : WState) (inst : WebviewInstance),
      st.current = some inst →
      renderTimes uri col n st =
        { st with
          revealed := st.revealed ++ List.replicate n (inst.panel.id, col)
          promises := st.promises ++ List.replicate n PromiseState.pending
          current := some { inst with
            disposables := inst.disposables
              ++ (List.range n).map
                (fun i => Listener.handshake (st.promises.length + i)) } } := by
  intro n
  induction n with
  | zero =>
    intro st inst h
    show st = _
    simp only [List.range_zero, List.map_nil, List.append_nil,
      List.replicate_zero]
    rw [← h]
  | succ m ih =>
    intro st inst h
    show renderTimes uri col m (Webview.render uri col st) = _
    rw [render_eq_of_some uri col st inst h, ih _ _ rfl]
    congr 1
    · congr 2
      rw [List.append_assoc, List.range_succ_eq_map, List.map_cons,
        List.map_map, List.singleton_append]
      congr 1
      rw [Nat.add_zero]
      congr 1
      refine List.map_congr_left ?_
      intro i _
      simp only [Function.comp]
      congr 1
      simp only [List.length_append, List.length_cons, List.length_nil]
      omega
    · rw [List.append_assoc, List.singleton_append, List.replicate_succ]
    · rw [List.append_assoc, List.singleton_append, List.replicate_succ]

/-- C10: starting from a state with a live instance, `n` further
`render` calls (each merely revealing the existing panel) append exactly
`n` handshake listener registrations, one per call with consecutive
promise indices, and `n` pending promises; the registrations are not
removed by message delivery, and one subsequent inbound message is
observed by every one of the `n` handshake listeners: it settles all of
their promises (resolving on `ready`, rejecting otherwise). -/
theorem C10_listener_accumulation (st : WState) (inst : WebviewInstance)
    (uri : String) (col : Nat) (n : Nat) (h : st.current = some inst) :
    ∃ inst', (renderTimes uri col n st).current = some inst'
      ∧ inst'.disposables = inst.disposables
          ++ (List.range n).map
              (fun i => Listener.handshake (st.promises.length + i))
      ∧ (renderTimes uri col n st).promises
          = st.promises ++ List.replicate n PromiseState.pending
      ∧ ∀ msg : WMessage,
          (deliverMessage msg (renderTimes uri col n st)).current
              = (renderTimes uri col n st).current
        ∧ ∀ i, i < n →
            (deliverMessage msg (renderTimes uri col n st)).promises.get?
                (st.promises.length + i)
              = some (if msg.command == "ready" then PromiseState.resolved
                  else PromiseState.rejected) := by
  rw [renderTimes_eq_of_some uri col n st inst h]
  refine ⟨_, rfl, rfl, rfl, ?_⟩
  intro msg
  constructor
  · exact foldl_fire_current msg _ _
  · intro i hi
    refine foldl_fire_settles msg (st.promises.length + i) _ _ ?_ ?_
    · exact List.mem_append_right _
        (List.mem_map.mpr ⟨i, List.mem_range.mpr hi, rfl⟩)
    · show (st.promises ++ List.replicate n PromiseState.pending).get?
          (st.promises.length + i) = some PromiseState.pending
      rw [List.get?_append_right (Nat.le_add_right _ _)]
      have hsub : st.promises.length + i - st.promises.length = i := by omega
      rw [hsub]
      simp [List.get?_eq_getElem?, List.getElem?_replicate, hi]

/-- C10 witness: from the fresh single-render state, two further
reveal-only `render` calls leave three pending promises; one inbound
non-`ready` message settles the handshakes of both later calls
(indices 1 and 2) as well. -/
theorem C10_witness :
    (renderTimes "ext" 2 2 (Webview.render "ext" 2
        (initState fun _ => 0))).promises
      = [PromiseState.pending, PromiseState.pending, PromiseState.pending]
  ∧ (deliverMessage ⟨"error", "x"⟩ (renderTimes "ext" 2 2
        (Webview.render "ext" 2 (initState fun _ => 0)))).promises.get? 1
      = some PromiseState.rejected
  ∧ (deliverMessage ⟨"error", "x"⟩ (renderTimes "ext" 2 2
        (Webview.render "ext" 2 (initState fun _ => 0)))).promises.get? 2
      = some PromiseState.rejected := by
  obtain ⟨inst', h1, h2, h3, h4⟩ :=
    C10_listener_accumulation (Webview.render "ext" 2 (initState fun _ => 0))
      sampleInstance "ext" 2 2 rfl
  refine ⟨by simpa using h3, ?_, ?_⟩
  · simpa using (h4 ⟨"error", "x"⟩).2 0 (by decide)
  · simpa using (h4 ⟨"error", "x"⟩).2 1 (by decide)

set_option maxRecDepth 4000 in
/-- C7 counterexample: a view-state-change event to visible regenerates
the content (the html changes and 32 fresh entropy draws are consumed)
but the title of the panel instance is left unchanged, refuting "mutates
both the title and the content" for the cited `update`. -/
theorem C7_counterexample :
    titleOf (stepViewChange true (Webview.render "ext" 2
        (initState fun n => n)))
      = titleOf (Webview.render "ext" 2 (initState fun n => n))
  ∧ htmlOf (stepViewChange true (Webview.render "ext" 2
        (initState fun n => n)))
      ≠ htmlOf (Webview.render "ext" 2 (initState fun n => n))
  ∧ (stepViewChange true (Webview.render "ext" 2
        (initState fun n => n))).entropyIdx
      = (Webview.render "ext" 2 (initState fun n => n)).entropyIdx + 32 := by
  refine ⟨rfl, ?_, rfl⟩
  decide

/-- C7 (amended): on a view-state-change event with the panel visible
the controller regenerates the full markup with a freshly generated
nonce (32 new entropy draws) and assigns it to the panel content,
leaving the title unchanged; when the panel is not visible, no
regeneration occurs (only the host-updated visibility flag changes). -/
theorem C7_view_change (st : WState) (inst : WebviewInstance)
    (h : st.current = some inst)
    (hreg : Listener.viewStateHandler ∈ inst.disposables) :
    (stepViewChange true st =
      { st with
        entropyIdx := st.entropyIdx + 32
        current := some { inst with panel :=
          { inst.panel with
            visible := true
            html := Webview.getHtmlForWebview inst.extensionUri st.entropy
              st.entropyIdx } } })
  ∧ (∀ inst2, (stepViewChange true st).current = some inst2 →
      inst2.panel.title = inst.panel.title)
  ∧ stepViewChange false st =
      { st with current := some { inst with panel :=
          { inst.panel with visible := false } } } := by
  have h1 : stepViewChange true st =
      { st with
        entropyIdx := st.entropyIdx + 32
        current := some { inst with panel :=
          { inst.panel with
            visible := true
            html := Webview.getHtmlForWebview inst.extensionUri st.entropy
              st.entropyIdx } } } := by
    simp [stepViewChange, h, hreg, Webview.update]
  refine ⟨h1, ?_, ?_⟩
  · intro inst2 h2
    rw [h1] at h2
    cases h2
    rfl
  · simp [stepViewChange, h, hreg]

/-- C7 witness: on the concrete fresh state the visible-event consumes
fresh entropy while the non-visible event leaves the content alone. -/
theorem C7_witness :
    stepViewChange false (Webview.render "ext" 2 (initState fun n => n))
      = { (Webview.render "ext" 2 (initState fun n => n)) with
          current := some { sampleInstance with
            panel := { sampleInstance.panel with
              html := Webview.getHtmlForWebview "ext" (fun n => n) 0
              visible := false } } } := by
  have h := C7_view_change (Webview.render "ext" 2 (initState fun n => n))
    { sampleInstance with
      panel := { sampleInstance.panel with
        html := Webview.getHtmlForWebview "ext" (fun n => n) 0 } }
    rfl (by decide)
  exact h.2.2

-- ---------------------------------------------------------------------
-- Marker-matching lemmas for the nonce-extraction observers
-- ---------------------------------------------------------------------

theorem leadMatch_append_left (m : List Char) :
    ∀ (a b : List Char), m.length ≤ a.length →
      leadMatch m (a ++ b) = leadMatch m a := by
  induction m with
  | nil => intro a b _; rfl
  | cons c m' ih =>
    intro a b h
    cases a with
    | nil => cases h
    | cons x a' =>
      show (decide (c = x) && leadMatch m' (a' ++ b))
          = (decide (c = x) && leadMatch m' a')
      rw [ih a' b (Nat.le_of_succ_le_succ h)]

theorem leadMatch_self_append (m b : List Char) :
    leadMatch m (m ++ b) = true := by
  induction m with
  | nil => rfl
  | cons c m' ih => simp [leadMatch, ih]

theorem leadMatch_getD (m : List Char) :
    ∀ (s : List Char), leadMatch m s = true →
      ∀ k, k < m.length → s.getD k 'A' = m.getD k 'A' := by
  induction m with
  | nil => intro s _ k hk; cases hk
  | cons c m' ih =>
    intro s h k hk
    cases s with
    | nil => cases h
    | cons x s' =>
      have hand := h
      simp only [leadMatch, Bool.and_eq_true, decide_eq_true_eq] at hand
      cases k with
      | zero => simpa using hand.1.symm
      | succ j =>
        exact ih s' hand.2 j (Nat.lt_of_succ_lt_succ hk)

theorem leadMatch_false_of_getD (m s : List Char) (k : Nat)
    (hk : k < m.length) (hne : s.getD k 'A' ≠ m.getD k 'A') :
    leadMatch m s = false := by
  cases hlm : leadMatch m s with
  | false => rfl
  | true => exact absurd (leadMatch_getD m s hlm k hk) hne

theorem dropThrough_append_of_no_hit (marker b : List Char) :
    ∀ a : List Char,
      (∀ i, i < a.length → leadMatch marker (a.drop i ++ b) = false) →
      dropThrough marker (a ++ b) = dropThrough marker b := by
  intro a
  induction a with
  | nil => intro _; rfl
  | cons c a' ih =>
    intro h
    have h0 : leadMatch marker (c :: (a' ++ b)) = false := by
      simpa using h 0 (Nat.succ_pos _)
    show dropThrough marker (c :: (a' ++ b)) = dropThrough marker b
    rw [dropThrough, h0]
    simp only [Bool.false_eq_true, if_false]
    exact ih fun i hi => by simpa using h (i + 1) (Nat.succ_lt_succ hi)

theorem dropThrough_self (m rest : List Char) (hm : m ≠ []) :
    dropThrough m (m ++ rest) = some rest := by
  cases m with
  | nil => exact absurd rfl hm
  | cons c m' =>
    show dropThrough (c :: m') (c :: (m' ++ rest)) = some rest
    rw [dropThrough, show leadMatch (c :: m') (c :: (m' ++ rest)) = true from
      leadMatch_self_append (c :: m') rest]
    simp only [if_true]
    congr 1
    show (m' ++ rest).drop m'.length = rest
    exact List.drop_left m' rest

theorem takeBefore_append_stop (stop : Char) :
    ∀ (a b : List Char), (∀ c ∈ a, c ≠ stop) →
      (∃ b', b = stop :: b') → takeBefore stop (a ++ b) = some a := by
  intro a
  induction a with
  | nil =>
    intro b _ hb
    obtain ⟨b', rfl⟩ := hb
    show takeBefore stop (stop :: b') = some []
    simp [takeBefore]
  | cons c a' ih =>
    intro b h hb
    have hc : c ≠ stop := h c (List.mem_cons_self c a')
    show takeBefore stop (c :: (a' ++ b)) = some (c :: a')
    rw [takeBefore, if_neg hc, ih b (fun x hx => h x (List.mem_cons_of_mem c hx)) hb]
    rfl

theorem noHitBefore_spec (m : List Char) (hm : m ≠ []) :
    ∀ (k : Nat) (s : List Char), noHitBefore m k s = true →
      ∀ i, i < k → leadMatch m (s.drop i) = false := by
  intro k
  induction k with
  | zero => intro s _ i hi; cases hi
  | succ n ih =>
    intro s h i hi
    cases s with
    | nil =>
      rw [List.drop_nil]
      cases m with
      | nil => exact absurd rfl hm
      | cons c m' => rfl
    | cons x s' =>
      have hand := h
      simp only [noHitBefore, Bool.and_eq_true, Bool.not_eq_true'] at hand
      cases i with
      | zero => exact hand.1
      | succ j =>
        show leadMatch m (s'.drop j) = false
        exact ih s' hand.2 j (Nat.lt_of_succ_lt_succ hi)

theorem getD_drop (l : List Char) :
    ∀ (p k : Nat), (l.drop p).getD k 'A' = l.getD (p + k) 'A' := by
  induction l with
  | nil => intro p k; simp
  | cons x l' ih =>
    intro p k
    cases p with
    | zero => rw [List.drop_zero, Nat.zero_add]
    | succ q =>
      rw [show q + 1 + k = (q + k) + 1 from by omega]
      show (l'.drop q).getD k 'A' = l'.getD (q + k) 'A'
      exact ih q k

theorem getD_mem (l : List Char) (n : Nat) (h : n < l.length) :
    l.getD n 'A' ∈ l := by
  rw [List.getD_eq_getElem l 'A' h]
  exact List.getElem_mem h

/-- The CSP nonce marker `'nonce-` as characters. -/
def cspMarker : List Char := "'nonce-".toList

/-- The script tag nonce attribute marker `nonce=\x22` as characters. -/
def tagMarker : List Char := "nonce=\"".toList

theorem toList_append (a b : String) : (a ++ b).toList = a.toList ++ b.toList := by
  cases a
  cases b
  rfl

set_option maxRecDepth 8000 in
theorem scan_csp_L1 :
    noHitBefore cspMarker htmlL1pre.toList.length htmlL1.toList = true := by
  decide

set_option maxRecDepth 8000 in
theorem scan_tag_L1 :
    noHitBefore tagMarker (htmlL1.toList.length - 6) htmlL1.toList = true := by
  decide

set_option maxRecDepth 8000 in
theorem scan_tag_L2 :
    noHitBefore tagMarker htmlL2pre.toList.length htmlL2.toList = true := by
  decide

theorem possibleChars_no_delims :
    ∀ c ∈ possibleChars, c ≠ '"' ∧ c ≠ '\'' := by decide

theorem tagMarker_getD_six : tagMarker.getD 6 'A' = '"' := rfl

theorem tagMarker_no_apostrophe :
    ∀ k, k < 7 → tagMarker.getD k 'A' ≠ '\'' := by decide

theorem generateNonce_toList (e : Nat → Nat) (s : Nat) :
    (generateNonce e s).toList
      = (List.range 32).map (fun i => possibleChars.getD (e (s + i) % 62) 'A') :=
  rfl

theorem generateNonce_mem (e : Nat → Nat) (s : Nat) :
    ∀ c ∈ (generateNonce e s).toList, c ∈ possibleChars := by
  rw [generateNonce_toList]
  intro c hc
  obtain ⟨i, _, rfl⟩ := List.mem_map.mp hc
  exact getD_mem _ _ (Nat.mod_lt _ (by decide))

theorem generateNonce_len (e : Nat → Nat) (s : Nat) :
    (generateNonce e s).toList.length = 32 := by
  rw [generateNonce_toList]
  simp

theorem htmlL1_split : htmlL1.toList = htmlL1pre.toList ++ cspMarker := by
  rw [htmlL1, toList_append]
  rfl

theorem htmlL2_split : htmlL2.toList = htmlL2pre.toList ++ tagMarker := by
  rw [htmlL2, toList_append]
  rfl

theorem extract_csp (nc rest : List Char)
    (hmem : ∀ c ∈ nc, c ∈ possibleChars) :
    (dropThrough cspMarker
        (htmlL1.toList ++ (nc ++ ('\'' :: rest)))).bind (takeBefore '\'')
      = some nc := by
  rw [htmlL1_split, List.append_assoc]
  rw [dropThrough_append_of_no_hit cspMarker _ htmlL1pre.toList ?hcond]
  case hcond =>
    intro i hi
    rw [← List.append_assoc]
    rw [leadMatch_append_left cspMarker (htmlL1pre.toList.drop i ++ cspMarker) _
      (by simp only [List.length_append, List.length_drop]; omega)]
    rw [show htmlL1pre.toList.drop i ++ cspMarker
        = (htmlL1pre.toList ++ cspMarker).drop i from by
      rw [List.drop_append_eq_append_drop,
        Nat.sub_eq_zero_of_le (Nat.le_of_lt hi), List.drop_zero]]
    rw [← htmlL1_split]
    exact noHitBefore_spec cspMarker (by decide) htmlL1pre.toList.length
      htmlL1.toList scan_csp_L1 i hi
  rw [dropThrough_self cspMarker _ (by decide)]
  show takeBefore '\'' (nc ++ ('\'' :: rest)) = some nc
  exact takeBefore_append_stop '\'' nc ('\'' :: rest)
    (fun c hc => (possibleChars_no_delims c (hmem c hc)).2) ⟨rest, rfl⟩


set_option maxRecDepth 4000 in
theorem htmlL1_len : htmlL1.toList.length = 528 := by decide

theorem htmlL2pre_len : htmlL2pre.toList.length = 44 := by decide

theorem htmlL2pre_head : htmlL2pre.toList.getD 0 'A' = '\'' := rfl

set_option maxRecDepth 4000 in
theorem tag_no_early_hit (nc tail : List Char)
    (hmem : ∀ c ∈ nc, c ∈ possibleChars) (hlen : nc.length = 32) :
    ∀ i, i < (htmlL1.toList ++ (nc ++ htmlL2pre.toList)).length →
      leadMatch tagMarker
        ((htmlL1.toList ++ (nc ++ htmlL2pre.toList)).drop i
          ++ (tagMarker ++ tail)) = false := by
  intro i hi
  have h7 : tagMarker.length = 7 := rfl
  have hL1 : htmlL1.toList.length = 528 := htmlL1_len
  have hL2p : htmlL2pre.toList.length = 44 := htmlL2pre_len
  have hilen : i < htmlL1.toList.length
      + (nc.length + htmlL2pre.toList.length) := by
    simpa [List.length_append] using hi
  by_cases h1 : i < 528
  · have hdrop : (htmlL1.toList ++ (nc ++ htmlL2pre.toList)).drop i
        = htmlL1.toList.drop i ++ (nc ++ htmlL2pre.toList) := by
      have hz : i - htmlL1.toList.length = 0 := by omega
      rw [List.drop_append_eq_append_drop, hz, List.drop_zero]
    rw [hdrop]
    by_cases h2 : i + 7 ≤ 528
    · rw [show htmlL1.toList.drop i ++ (nc ++ htmlL2pre.toList)
            ++ (tagMarker ++ tail)
          = htmlL1.toList.drop i ++ ((nc ++ htmlL2pre.toList)
            ++ (tagMarker ++ tail)) from by simp only [List.append_assoc]]
      rw [leadMatch_append_left tagMarker (htmlL1.toList.drop i) _
        (by rw [h7, List.length_drop]; omega)]
      exact noHitBefore_spec tagMarker (by decide)
        (htmlL1.toList.length - 6) htmlL1.toList scan_tag_L1 i (by omega)
    · apply leadMatch_false_of_getD tagMarker _ 6 (by decide)
      have e1 : (htmlL1.toList.drop i ++ (nc ++ htmlL2pre.toList)
            ++ (tagMarker ++ tail)).getD 6 'A'
          = (htmlL1.toList.drop i ++ (nc ++ htmlL2pre.toList)).getD 6 'A' :=
        List.getD_append _ _ 'A' 6 (by
          simp only [List.length_append, List.length_drop]; omega)
      have e2 : (htmlL1.toList.drop i ++ (nc ++ htmlL2pre.toList)).getD 6 'A'
          = (nc ++ htmlL2pre.toList).getD (6 - (htmlL1.toList.length - i)) 'A' := by
        rw [List.getD_append_right (htmlL1.toList.drop i) _ 'A' 6 (by
          rw [List.length_drop]; omega), List.length_drop]
      have e3 : (nc ++ htmlL2pre.toList).getD (6 - (htmlL1.toList.length - i)) 'A'
          = nc.getD (6 - (htmlL1.toList.length - i)) 'A' :=
        List.getD_append nc htmlL2pre.toList 'A' _ (by omega)
      rw [e1, e2, e3, tagMarker_getD_six]
      exact (possibleChars_no_delims _
        (hmem _ (getD_mem nc _ (by omega)))).1
  · by_cases h3 : i < 528 + 32
    · have hp : i - htmlL1.toList.length < 32 := by omega
      have hdrop : (htmlL1.toList ++ (nc ++ htmlL2pre.toList)).drop i
          = nc.drop (i - htmlL1.toList.length) ++ htmlL2pre.toList := by
        have hd1 : htmlL1.toList.drop i = [] :=
          List.drop_eq_nil_of_le (by omega)
        have hd2 : (i - htmlL1.toList.length) - nc.length = 0 := by omega
        rw [List.drop_append_eq_append_drop, hd1, List.nil_append,
          List.drop_append_eq_append_drop, hd2, List.drop_zero]
      rw [hdrop]
      by_cases h4 : (i - htmlL1.toList.length) + 7 ≤ 32
      · apply leadMatch_false_of_getD tagMarker _ 6 (by decide)
        have e1 : (nc.drop (i - htmlL1.toList.length) ++ htmlL2pre.toList
              ++ (tagMarker ++ tail)).getD 6 'A'
            = (nc.drop (i - htmlL1.toList.length)).getD 6 'A' := by
          rw [show nc.drop (i - htmlL1.toList.length) ++ htmlL2pre.toList
                ++ (tagMarker ++ tail)
              = nc.drop (i - htmlL1.toList.length)
                ++ (htmlL2pre.toList ++ (tagMarker ++ tail)) from by
            simp only [List.append_assoc]]
          exact List.getD_append _ _ 'A' 6 (by rw [List.length_drop]; omega)
        rw [e1, getD_drop, tagMarker_getD_six]
        exact (possibleChars_no_delims _
          (hmem _ (getD_mem nc _ (by omega)))).1
      · apply leadMatch_false_of_getD tagMarker _
          (32 - (i - htmlL1.toList.length)) (by rw [h7]; omega)
        have e1 : (nc.drop (i - htmlL1.toList.length) ++ htmlL2pre.toList
              ++ (tagMarker ++ tail)).getD
                (32 - (i - htmlL1.toList.length)) 'A'
            = htmlL2pre.toList.getD 0 'A' := by
          rw [show nc.drop (i - htmlL1.toList.length) ++ htmlL2pre.toList
                ++ (tagMarker ++ tail)
              = nc.drop (i - htmlL1.toList.length)
                ++ (htmlL2pre.toList ++ (tagMarker ++ tail)) from by
            simp only [List.append_assoc]]
          rw [List.getD_append_right (nc.drop (i - htmlL1.toList.length)) _
            'A' _ (by rw [List.length_drop]; omega)]
          rw [List.getD_append htmlL2pre.toList _ 'A' _ (by
            rw [List.length_drop]; omega)]
          congr 1
          rw [List.length_drop]
          omega
        rw [e1, htmlL2pre_head]
        intro heq
        exact tagMarker_no_apostrophe _ (by omega) heq.symm
    · have hq : i - htmlL1.toList.length - 32 < htmlL2pre.toList.length := by
        omega
      have hdrop : (htmlL1.toList ++ (nc ++ htmlL2pre.toList)).drop i
          = htmlL2pre.toList.drop (i - htmlL1.toList.length - 32) := by
        have hd1 : htmlL1.toList.drop i = [] :=
          List.drop_eq_nil_of_le (by omega)
        have hd2 : nc.drop (i - htmlL1.toList.length) = [] :=
          List.drop_eq_nil_of_le (by omega)
        rw [List.drop_append_eq_append_drop, hd1, List.nil_append,
          List.drop_append_eq_append_drop, hd2, List.nil_append]
        congr 1
        omega
      rw [hdrop]
      rw [show htmlL2pre.toList.drop (i - htmlL1.toList.length - 32)
            ++ (tagMarker ++ tail)
          = (htmlL2pre.toList.drop (i - htmlL1.toList.length - 32)
            ++ tagMarker) ++ tail from by simp only [List.append_assoc]]
      rw [leadMatch_append_left tagMarker _ tail (by
        simp only [List.length_append, List.length_drop]
        omega)]
      rw [show htmlL2pre.toList.drop (i - htmlL1.toList.length - 32)
            ++ tagMarker
          = (htmlL2pre.toList ++ tagMarker).drop
              (i - htmlL1.toList.length - 32) from by
        have hz : (i - htmlL1.toList.length - 32) - htmlL2pre.toList.length
            = 0 := by omega
        rw [List.drop_append_eq_append_drop, hz, List.drop_zero]]
      rw [← htmlL2_split]
      exact noHitBefore_spec tagMarker (by decide)
        htmlL2pre.toList.length htmlL2.toList scan_tag_L2 _ hq

theorem extract_tag (nc rest : List Char)
    (hmem : ∀ c ∈ nc, c ∈ possibleChars) (hlen : nc.length = 32) :
    (dropThrough tagMarker
        (htmlL1.toList
          ++ (nc ++ (htmlL2.toList ++ (nc ++ ('"' :: rest)))))).bind
      (takeBefore '"') = some nc := by
  rw [htmlL2_split]
  rw [show htmlL1.toList
        ++ (nc ++ ((htmlL2pre.toList ++ tagMarker) ++ (nc ++ ('"' :: rest))))
      = (htmlL1.toList ++ (nc ++ htmlL2pre.toList))
        ++ (tagMarker ++ (nc ++ ('"' :: rest))) from by
    simp only [List.append_assoc]]
  rw [dropThrough_append_of_no_hit tagMarker _ _
    (tag_no_early_hit nc (nc ++ ('"' :: rest)) hmem hlen)]
  rw [dropThrough_self tagMarker _ (by decide)]
  show takeBefore '"' (nc ++ ('"' :: rest)) = some nc
  exact takeBefore_append_stop '"' nc _
    (fun c hc => (possibleChars_no_delims c (hmem c hc)).1) ⟨rest, rfl⟩

theorem nonce_extraction (uri nonce : String)
    (hmem : ∀ c ∈ nonce.toList, c ∈ possibleChars)
    (hlen : nonce.toList.length = 32) :
    cspNonceOf (htmlTemplate uri nonce) = some nonce
  ∧ scriptTagNonceOf (htmlTemplate uri nonce) = some nonce := by
  have hdecomp : (htmlTemplate uri nonce).toList
      = htmlL1.toList ++ (nonce.toList ++ (htmlL2.toList ++ (nonce.toList
          ++ (htmlL3.toList ++ (uri.toList ++ htmlL4.toList))))) := by
    simp only [htmlTemplate, toList_append, List.append_assoc]
  constructor
  · show ((dropThrough "'nonce-".toList (htmlTemplate uri nonce).toList).bind
        (takeBefore '\'')).map (fun l => String.mk l) = some nonce
    rw [show ("'nonce-".toList) = cspMarker from rfl, hdecomp]
    rw [show htmlL2.toList ++ (nonce.toList
          ++ (htmlL3.toList ++ (uri.toList ++ htmlL4.toList)))
        = '\'' :: (htmlL2.toList.tail ++ (nonce.toList
          ++ (htmlL3.toList ++ (uri.toList ++ htmlL4.toList)))) from rfl]
    rw [extract_csp nonce.toList _ hmem]
    show some (String.mk nonce.toList) = some nonce
    rfl
  · show ((dropThrough "nonce=\"".toList (htmlTemplate uri nonce).toList).bind
        (takeBefore '"')).map (fun l => String.mk l) = some nonce
    rw [show ("nonce=\"".toList) = tagMarker from rfl, hdecomp]
    rw [show htmlL3.toList ++ (uri.toList ++ htmlL4.toList)
        = '"' :: (htmlL3.toList.tail ++ (uri.toList ++ htmlL4.toList))
        from rfl]
    rw [extract_tag nonce.toList _ hmem hlen]
    show some (String.mk nonce.toList) = some nonce
    rfl

set_option maxRecDepth 4000 in
theorem possibleChars_nodup : possibleChars.Nodup := by decide

set_option maxRecDepth 200000 in
/-- C5 counterexample: under the all-zero entropy oracle, two successive
content regenerations (two visibility-change events, each consuming 32
fresh draws) produce identical documents whose declared nonce is the
same 32-character string, so "any two successive content generations
produce different nonce values" is false as an unconditional statement:
the code guarantees only a fresh sequence of random draws per
generation, not distinctness of the resulting values. -/
theorem C5_counterexample :
    htmlOf (stepViewChange true (stepViewChange true
        (Webview.render "ext" 2 (initState fun _ => 0))))
      = htmlOf (stepViewChange true
        (Webview.render "ext" 2 (initState fun _ => 0)))
  ∧ nonceOf (stepViewChange true (stepViewChange true
        (Webview.render "ext" 2 (initState fun _ => 0))))
      = some "AAAAAAAAAAAAAAAAAAAAAAAAAAAAAAAA"
  ∧ (stepViewChange true (stepViewChange true
        (Webview.render "ext" 2 (initState fun _ => 0)))).entropyIdx
      = (stepViewChange true
        (Webview.render "ext" 2 (initState fun _ => 0))).entropyIdx + 32 :=
  ⟨rfl, rfl, rfl⟩

/-- C5 (amended): each content generation performs a fresh 32-draw nonce
generation, and two generations produce different nonce values whenever
their underlying random draws differ at some position modulo the
62-character alphabet (distinctness therefore holds only up to the
randomness, not unconditionally); and in every generated document the
nonce attribute of the script tag and the nonce declared in the
Content-Security-Policy's script-src directive are both exactly the
generated nonce. -/
theorem C5_nonce (e : Nat → Nat) (s t : Nat) (uri : String) :
    ((∃ i, i < 32 ∧ e (s + i) % 62 ≠ e (t + i) % 62) →
      generateNonce e s ≠ generateNonce e t)
  ∧ cspNonceOf (Webview.getHtmlForWebview uri e s)
      = some (generateNonce e s)
  ∧ scriptTagNonceOf (Webview.getHtmlForWebview uri e s)
      = some (generateNonce e s) := by
  refine ⟨?_, ?_, ?_⟩
  · rintro ⟨i, hi, hne⟩ heq
    have hl : (generateNonce e s).toList = (generateNonce e t).toList := by
      rw [heq]
    rw [generateNonce_toList, generateNonce_toList] at hl
    have h1 : (List.map (fun j => possibleChars.getD (e (s + j) % 62) 'A')
          (List.range 32)).getD i 'A'
        = (List.map (fun j => possibleChars.getD (e (t + j) % 62) 'A')
          (List.range 32)).getD i 'A' :=
      congrArg (fun l => l.getD i 'A') hl
    have hg : ∀ f : Nat → Char, ((List.range 32).map f).getD i 'A' = f i := by
      intro f
      rw [List.getD_eq_getElem _ _ (by simpa using hi)]
      simp
    rw [hg, hg] at h1
    have ha : e (s + i) % 62 < possibleChars.length := Nat.mod_lt _ (by decide)
    have hb : e (t + i) % 62 < possibleChars.length := Nat.mod_lt _ (by decide)
    rw [List.getD_eq_getElem _ _ ha, List.getD_eq_getElem _ _ hb] at h1
    exact hne ((List.Nodup.getElem_inj_iff possibleChars_nodup).mp h1)
  · exact (nonce_extraction _ _ (generateNonce_mem e s)
      (generateNonce_len e s)).1
  · exact (nonce_extraction _ _ (generateNonce_mem e s)
      (generateNonce_len e s)).2

/-- C5 witness: with the identity oracle the first two generations draw
different values, so the nonces differ; and on the concrete document the
CSP-declared nonce is exactly the generated one. -/
theorem C5_witness :
    generateNonce (fun n => n) 0 ≠ generateNonce (fun n => n) 32
  ∧ cspNonceOf (Webview.getHtmlForWebview "ext" (fun n => n) 0)
      = some (generateNonce (fun n => n) 0) := by
  have h := C5_nonce (fun n => n) 0 32 "ext"
  exact ⟨h.1 ⟨0, by decide, by decide⟩, h.2.1⟩
